import Mathlib

/-!
# udp_client: a shallow embedding of `src/udp_client.c`

The program is one function, `main`, plus the helper `die`.  It creates a UDP
socket, scans `argv` for `-s`, `-p`, `-c`, prints the configuration, resolves
the address with `inet_aton`, and sends the fixed message `count` times,
printing a progress line after every send.

Modelling conventions.

* `argv` is the list `argv[0], ..., argv[argc-1]`; `argv[argc]` is the null
  pointer (`none`), as the C standard guarantees.
* `int` is a signed 32-bit integer and `long` a signed 64-bit integer (LP64).
  Values are mathematical integers (`Int`); every conversion or arithmetic
  step that can leave the range is wrapped explicitly (`toInt`, `toUInt16`).
* The operating system and the C library calls whose result the program
  cannot determine (`socket`, `inet_aton`, `sendto`, the `errno` text printed
  by `perror`) are the fields of an environment `Env`.
* Handing a null pointer to `atol` or `inet_aton` is modelled as the outcome
  `Status.fault` (the process is killed, there is no exit status).
* Loops that the program bounds by a counter are run with fuel; running out
  of fuel is the result `none`, and `main_total` shows it never happens.
-/

namespace UdpClient

/-! ## Constants (lines 13-16) -/

/-- Line 13: `#define SERVER "127.0.0.1"`. -/
def SERVER : String := "127.0.0.1"

/-- Line 14: `#define BUFLEN 512`. -/
def BUFLEN : Nat := 512

/-- Line 15: `#define PORT 5556`. -/
def PORT : Int := 5556

/-- Line 16: `#define COUNT 10`. -/
def COUNT : Int := 10

/-! ## Machine integers -/

/-- Conversion of an integer value to `int` (signed, 32 bits, two's complement wrap). -/
def toInt (x : Int) : Int := (x + 2147483648) % 4294967296 - 2147483648

/-- Conversion of an integer value to `long` as `strtol` does it on overflow:
the result is clamped to `LONG_MIN` / `LONG_MAX` (64 bits). -/
def clampLong (x : Int) : Int :=
  if x < -9223372036854775808 then -9223372036854775808
  else if 9223372036854775807 < x then 9223372036854775807
  else x

/-- Conversion of an `int` to `uint16_t` (the parameter type of `htons`). -/
def toUInt16 (x : Int) : Int := x % 65536

/-- The two bytes of `htons(x)` in memory, most significant first (network order). -/
def htons (x : Int) : List Int := [toUInt16 x / 256, toUInt16 x % 256]

/-- The port number a receiver reads from the two network-order bytes. -/
def ntohs : List Int → Int
  | [hi, lo] => hi * 256 + lo
  | _ => 0

/-! ## C library: `atol`, `strlen`, `perror`, `printf` conversions -/

/-- The C library `isspace` in the C locale. -/
def isspace (c : Char) : Bool :=
  c = ' ' || c = '\t' || c = '\n' || c = '\x0b' || c = '\x0c' || c = '\r'

/-- The C library `isdigit`. -/
def isdigit (c : Char) : Bool := decide ('0' ≤ c) && decide (c ≤ '9')

/-- Value of the longest prefix of decimal digits, accumulated left to right. -/
def digitsVal : Nat → List Char → Nat
  | acc, [] => acc
  | acc, c :: cs => if isdigit c then digitsVal (acc * 10 + (c.toNat - 48)) cs else acc

/-- The C library `atol(s)`, that is `strtol(s, NULL, 10)`: skip white space, read an optional
sign, read decimal digits up to the first other character; no digits give 0. -/
def atol (s : String) : Int :=
  match s.toList.dropWhile isspace with
  | '-' :: ds => clampLong (-(digitsVal 0 ds : Int))
  | '+' :: ds => clampLong (digitsVal 0 ds)
  | ds => clampLong (digitsVal 0 ds)

/-- The C library `strlen`: number of characters before the first NUL of a buffer. -/
def strlen : List Char → Nat
  | [] => 0
  | c :: cs => if c = '\x00' then 0 else strlen cs + 1

/-- Line 29, `char message[BUFLEN] = "test123\n";`: the literal, then NUL up to
`BUFLEN` characters. -/
def message : List Char := "test123\n".toList ++ List.replicate (BUFLEN - 8) '\x00'

/-- The bytes `sendto` is given: the first `strlen(message)` bytes of `message` (line 84). -/
def payload : List Char := message.take (strlen message)

/-- The C library `perror(s)`: `s`, a colon and a blank, the text of `errno`, a newline. -/
def perror (s errnoText : String) : String := s ++ ": " ++ errnoText ++ "\n"

/-- Conversion `%i` of an `int`. -/
def fmtInt (x : Int) : String := toString x

/-- Conversion `%s` of a `char*`; glibc prints a null pointer as `(null)`. -/
def fmtStr : Option String → String
  | some s => s
  | none => "(null)"

/-- Conversion `%.2f` of a `float` that holds the integer `q`.  The program only ever
stores an `int` quotient of magnitude at most 100 in `percent`; such a value is
exact in a `float`, and its two decimals are `00`. -/
def fmtFloat2 (q : Int) : String := toString q ++ ".00"

/-- The usage text handed to `die` (line 42). -/
def usage : String :=
  "Usage:\n udp_client -s \x7bip_address\x7d -p \x7budp_port\x7d [-c \x7bpackets\x7d]\n"

/-! ## Environment and process state -/

/-- Results of the calls the program does not control. -/
structure Env where
  /-- Outcome of `socket(...)`: `none` when it returns a descriptor, `some e` when it
  returns -1, with `e` the text of `errno`. -/
  socket : Option String
  /-- Text of `errno` at the time `die` is called with the usage text. -/
  usageErrno : String
  /-- Whether `inet_aton(server, ...)` returns non-zero. -/
  inet_aton : String → Bool
  /-- Outcome of the `k`-th call of `sendto` (counted from 0): `none` when it succeeds,
  `some e` when it returns -1, with `e` the text of `errno`. -/
  sendto : Nat → Option String

/-- How far the process has got. -/
inductive Status
  /-- Still executing. -/
  | running
  /-- Ended by `exit(code)` or by `return code` from `main`. -/
  | exited (code : Nat)
  /-- Killed after a null pointer was handed to `atol` or `inet_aton`. -/
  | fault
  deriving DecidableEq, Repr

/-- Observable state of the process. -/
structure Proc where
  status : Status
  /-- Text written to standard output. -/
  out : String
  /-- Text written to standard error. -/
  err : String
  /-- Payload of every `sendto` call made so far, in order. -/
  sends : List (List Char)
  /-- Value of the local `counter` (line 81). -/
  counter : Int
  /-- Whether `close(s)` was called. -/
  closed : Bool
  deriving DecidableEq, Repr

/-- State before `main` has done anything observable. -/
def Proc.init : Proc :=
  { status := .running, out := "", err := "", sends := [], counter := 0, closed := false }

/-- Lines 18-22, `die(s)`: `perror(s); exit(1);`. -/
def die (s errnoText : String) (p : Proc) : Proc :=
  { p with err := p.err ++ perror s errnoText, status := .exited 1 }

/-! ## The argument scan (lines 46-65) -/

/-- The locals the scan assigns, and the indices at which it read `argv`. -/
structure Locals where
  /-- `char* server`; `none` is the null pointer. -/
  server : Option String
  port : Int
  count : Int
  /-- Value of `i`. -/
  i : Nat
  /-- Indices `k` of every evaluation of `argv[k]`, in order (one entry per
  loop iteration for `argv[i]`, one for every `argv[++i]`). -/
  reads : List Nat
  deriving DecidableEq, Repr

/-- Lines 31-33 and the `i = 1` of line 46. -/
def Locals.init : Locals :=
  { server := some SERVER, port := PORT, count := COUNT, i := 1, reads := [] }

/-- How the scan loop ended. -/
inductive Stop
  /-- The loop condition `i < argc` failed. -/
  | finished
  /-- Lines 62-63: `printf("Invalid: %s\n", argv[i]); return 1;`. -/
  | invalid (tok : String)
  /-- `atol` was called with `argv[argc]`, a null pointer. -/
  | fault
  deriving DecidableEq, Repr

/-- The loop `for (i = 1; i < argc; i++)` of lines 46-65, started at `i = st.i`.
The first argument is `argv[i], ..., argv[argc-1]`; it is empty exactly when
`i < argc` fails.  `argv[++i]` is the second element of that list, or the null
pointer when the list has one element. -/
def scanLoop : List String → Locals → Stop × Locals
  | [], st => (.finished, st)
  | [tok], st =>
    let st := { st with reads := st.reads ++ [st.i] }
    if tok = "-s" then
      (.finished, { st with server := none, reads := st.reads ++ [st.i + 1], i := st.i + 2 })
    else if tok = "-p" then
      (.fault, { st with reads := st.reads ++ [st.i + 1], i := st.i + 1 })
    else if tok = "-c" then
      (.fault, { st with reads := st.reads ++ [st.i + 1], i := st.i + 1 })
    else
      (.invalid tok, st)
  | tok :: v :: rest, st =>
    let st := { st with reads := st.reads ++ [st.i] }
    if tok = "-s" then
      scanLoop rest { st with server := some v, reads := st.reads ++ [st.i + 1], i := st.i + 2 }
    else if tok = "-p" then
      scanLoop rest
        { st with port := toInt (atol v), reads := st.reads ++ [st.i + 1], i := st.i + 2 }
    else if tok = "-c" then
      scanLoop rest
        { st with count := toInt (atol v), reads := st.reads ++ [st.i + 1], i := st.i + 2 }
    else
      (.invalid tok, st)

/-- The scan as `main` runs it: from `i = 1` with the defaults of lines 31-33. -/
def scan (argv : List String) : Stop × Locals := scanLoop (argv.drop 1) Locals.init

/-! ## The send loop (lines 81-97) -/

/-- Line 91, `(counter * 100) / count` as `int` arithmetic: the product wraps to 32
bits, the division truncates toward zero. -/
def percent (counter count : Int) : Int := Int.tdiv (toInt (counter * 100)) count

/-- One progress line, `printf("%.2f \%\n", percent)`: the value, a blank, a percent
sign, a newline. -/
def progressLine (counter count : Int) : String := fmtFloat2 (percent counter count) ++ " %\n"

/-- The loop `for (counter = 0; counter < count; counter++)` of lines 82-97, from the
state `p`.  `none` means the fuel ran out before the loop ended. -/
def sendLoop (env : Env) (count : Int) : Nat → Proc → Option Proc
  | 0, _ => none
  | fuel + 1, p =>
    if p.counter < count then
      let p1 := { p with sends := p.sends ++ [payload] }
      match env.sendto p.sends.length with
      | some e => some (die "sendto()" e p1)
      | none =>
        sendLoop env count fuel
          { p1 with out := p1.out ++ progressLine p1.counter count, counter := p1.counter + 1 }
    else some p

/-! ## `main` (lines 24-102) -/

/-- The configuration line of line 67. -/
def configLine (server : Option String) (port count : Int) : String :=
  "Server: " ++ fmtStr server ++ ", port: " ++ fmtInt port ++ ", packets: " ++ fmtInt count ++ "\n"

/-- Lines 71-101: what `main` does after the argument scan has finished. -/
def afterScan (env : Env) (st : Locals) (p : Proc) : Option Proc :=
  let p := { p with out := p.out ++ configLine st.server st.port st.count }
  match st.server with
  | none => some { p with status := .fault }
  | some server =>
    if env.inet_aton server = false then
      some { p with err := p.err ++ "inet_aton() failed\n", status := .exited 1 }
    else
      match sendLoop env st.count (st.count.toNat + 1) p with
      | none => none
      | some q =>
        match q.status with
        | .running =>
          some { q with out := q.out ++ "100.00 %\n", closed := true, status := .exited 0 }
        | _ => some q

/-- The program.  `none` only if a loop of the model ran out of fuel. -/
def main (env : Env) (argv : List String) : Option Proc :=
  match env.socket with
  | some e => some (die "socket" e Proc.init)
  | none =>
    if argv.length = 1 then some (die usage env.usageErrno Proc.init)
    else
      match scan argv with
      | (.invalid tok, _) =>
        some { Proc.init with out := "Invalid: " ++ tok ++ "\n", status := .exited 1 }
      | (.fault, _) => some { Proc.init with status := .fault }
      | (.finished, st) => afterScan env st Proc.init

/-- The number carried by the `sin_port` field that line 73 stores. -/
def wirePort (st : Locals) : Int := ntohs (htons st.port)

/-- An environment in which every call succeeds. -/
def Env.ok : Env :=
  { socket := none, usageErrno := "Success", inet_aton := fun _ => true, sendto := fun _ => none }

/-! ## Vocabulary of the specification -/

/-- The three tokens the scan recognises. -/
def isFlag (tok : String) : Bool := tok = "-s" || tok = "-p" || tok = "-c"

/-- The argument tokens of a list of flag/value pairs, in order. -/
def tokens : List (String × String) → List String
  | [] => []
  | (f, v) :: ps => f :: v :: tokens ps

/-- The value of the last pair whose flag is `flag`, if there is one. -/
def lastValue (flag : String) (pairs : List (String × String)) : Option String :=
  ((pairs.filter fun p => p.1 = flag).getLast?).map fun p => p.2

/-- The progress lines of iterations `c, c+1, ..., c+n-1`. -/
def progressLines (count : Int) : Nat → Int → String
  | 0, _ => ""
  | n + 1, c => progressLine c count ++ progressLines count n (c + 1)

/-- The text a line of the specification shows for iteration `i` of `n`:
`floor(i*100/n)` with two decimals, a blank and a percent sign. -/
def specLine (n i : Nat) : String := toString (i * 100 / n) ++ ".00 %\n"

/-! ## Machine integers: lemmas -/

theorem toInt_of_range {x : Int} (h₁ : -2147483648 ≤ x) (h₂ : x ≤ 2147483647) :
    toInt x = x := by
  unfold toInt
  omega

theorem toInt_range (x : Int) : -2147483648 ≤ toInt x ∧ toInt x ≤ 2147483647 := by
  unfold toInt
  omega

theorem percent_of_range {i n : Int} (hi : 0 ≤ i) (hn : 0 ≤ n) (h : i * 100 ≤ 2147483647) :
    percent i n = i * 100 / n := by
  unfold percent
  rw [toInt_of_range (by omega) h]
  exact Int.tdiv_eq_ediv (by omega) hn

theorem percent_mono {n i : Int} (hn : 0 < n) (hr : (n - 1) * 100 ≤ 2147483647)
    (hi : 0 ≤ i) (hlt : i + 1 < n) : percent i n ≤ percent (i + 1) n := by
  rw [percent_of_range hi (by omega) (by omega),
    percent_of_range (by omega) (by omega) (by omega)]
  exact Int.ediv_le_ediv hn (by omega)

/-! ## The argument scan: lemmas -/

theorem isFlag_cases {tok : String} (h : isFlag tok = true) :
    tok = "-s" ∨ tok = "-p" ∨ tok = "-c" := by
  simpa [isFlag, or_assoc] using h

theorem isFlag_false {tok : String} (h : isFlag tok = false) :
    tok ≠ "-s" ∧ tok ≠ "-p" ∧ tok ≠ "-c" := by
  simpa [isFlag, and_assoc] using h

theorem lastValue_nil (flag : String) : lastValue flag [] = none := rfl

theorem lastValue_cons (flag f v : String) (ps : List (String × String)) :
    lastValue flag ((f, v) :: ps) =
      match lastValue flag ps with
      | some w => some w
      | none => if f = flag then some v else none := by
  unfold lastValue
  by_cases hf : f = flag
  · simp only [List.filter_cons, hf, decide_True, if_true, List.getLast?_cons]
    cases (List.filter (fun p => decide (p.1 = flag)) ps).getLast? <;> simp
  · have hd : decide (f = flag) = false := decide_eq_false hf
    simp only [List.filter_cons, hd, Bool.false_eq_true, if_false]
    cases (List.filter (fun p => decide (p.1 = flag)) ps).getLast? <;> simp [hf]

/-- Scanning a run of complete flag/value pairs: the loop goes on with what follows
them, the locals holding the value of the last pair of each flag. -/
theorem scanLoop_tokens (rest : List String) :
    ∀ (pairs : List (String × String)) (st : Locals),
      (∀ p ∈ pairs, isFlag p.1 = true) →
      ∃ st', scanLoop (tokens pairs ++ rest) st = scanLoop rest st' ∧
        st'.server = (match lastValue "-s" pairs with
          | some v => some v
          | none => st.server) ∧
        st'.port = (match lastValue "-p" pairs with
          | some v => toInt (atol v)
          | none => st.port) ∧
        st'.count = (match lastValue "-c" pairs with
          | some v => toInt (atol v)
          | none => st.count) ∧
        st'.i = st.i + 2 * pairs.length := by
  intro pairs
  induction pairs with
  | nil =>
    intro st _
    exact ⟨st, rfl, rfl, rfl, rfl, rfl⟩
  | cons p ps ih =>
    obtain ⟨f, v⟩ := p
    intro st h
    have hf : isFlag f = true := h (f, v) (List.mem_cons_self _ _)
    have hps : ∀ q ∈ ps, isFlag q.1 = true := fun q hq => h q (List.mem_cons_of_mem _ hq)
    rcases isFlag_cases hf with rfl | rfl | rfl
    · obtain ⟨st', h₀, h₁, h₂, h₃, h₄⟩ := ih
        { st with server := some v, reads := (st.reads ++ [st.i]) ++ [st.i + 1], i := st.i + 2 }
        hps
      refine ⟨st', ?_, ?_, ?_, ?_, ?_⟩
      · rw [← h₀]; simp [tokens, scanLoop]
      · rw [h₁, lastValue_cons]; cases lastValue "-s" ps <;> simp
      · rw [h₂, lastValue_cons]; cases lastValue "-p" ps <;> simp
      · rw [h₃, lastValue_cons]; cases lastValue "-c" ps <;> simp
      · rw [h₄]; simp only [List.length_cons]; omega
    · obtain ⟨st', h₀, h₁, h₂, h₃, h₄⟩ := ih
        { st with port := toInt (atol v), reads := (st.reads ++ [st.i]) ++ [st.i + 1],
                  i := st.i + 2 }
        hps
      refine ⟨st', ?_, ?_, ?_, ?_, ?_⟩
      · rw [← h₀]; simp [tokens, scanLoop]
      · rw [h₁, lastValue_cons]; cases lastValue "-s" ps <;> simp
      · rw [h₂, lastValue_cons]; cases lastValue "-p" ps <;> simp
      · rw [h₃, lastValue_cons]; cases lastValue "-c" ps <;> simp
      · rw [h₄]; simp only [List.length_cons]; omega
    · obtain ⟨st', h₀, h₁, h₂, h₃, h₄⟩ := ih
        { st with count := toInt (atol v), reads := (st.reads ++ [st.i]) ++ [st.i + 1],
                  i := st.i + 2 }
        hps
      refine ⟨st', ?_, ?_, ?_, ?_, ?_⟩
      · rw [← h₀]; simp [tokens, scanLoop]
      · rw [h₁, lastValue_cons]; cases lastValue "-s" ps <;> simp
      · rw [h₂, lastValue_cons]; cases lastValue "-p" ps <;> simp
      · rw [h₃, lastValue_cons]; cases lastValue "-c" ps <;> simp
      · rw [h₄]; simp only [List.length_cons]; omega

/-- A token that is no flag, met at a flag position, stops the scan. -/
theorem scanLoop_invalid (tok : String) (rest : List String) (st : Locals)
    (h : isFlag tok = false) : (scanLoop (tok :: rest) st).1 = .invalid tok := by
  obtain ⟨h₁, h₂, h₃⟩ := isFlag_false h
  cases rest with
  | nil => simp [scanLoop, h₁, h₂, h₃]
  | cons v rest => simp [scanLoop, h₁, h₂, h₃]

/-- Induction on lists in steps of two, the stride of the scan over a flag and its value. -/
theorem list_two_step {α : Type} {P : List α → Prop} (h0 : P []) (h1 : ∀ a, P [a])
    (h2 : ∀ a b l, P l → P (a :: b :: l)) : ∀ l, P l := by
  have key : ∀ l, P l ∧ ∀ a, P (a :: l) := by
    intro l
    induction l with
    | nil => exact ⟨h0, h1⟩
    | cons b l ih => exact ⟨ih.2 b, fun a => h2 a b l ih.1⟩
  exact fun l => (key l).1

/-- The scan keeps `port` and `count` inside the range of `int`. -/
theorem scanLoop_range : ∀ (l : List String) (st : Locals),
    (-2147483648 ≤ st.port ∧ st.port ≤ 2147483647) →
    (-2147483648 ≤ st.count ∧ st.count ≤ 2147483647) →
    (-2147483648 ≤ (scanLoop l st).2.port ∧ (scanLoop l st).2.port ≤ 2147483647) ∧
    (-2147483648 ≤ (scanLoop l st).2.count ∧ (scanLoop l st).2.count ≤ 2147483647) := by
  intro l
  induction l using list_two_step with
  | h0 => intro st hp hc; exact ⟨hp, hc⟩
  | h1 tok =>
    intro st hp hc
    simp only [scanLoop]
    split_ifs <;> exact ⟨hp, hc⟩
  | h2 tok v rest ih =>
    intro st hp hc
    simp only [scanLoop]
    split_ifs
    · exact ih _ hp hc
    · exact ih _ (toInt_range _) hc
    · exact ih _ hp (toInt_range _)
    · exact ⟨hp, hc⟩

/-- Every index the scan reads is one read before or lies between the start index and
the index one past the last token (where the null pointer `argv[argc]` is). -/
theorem scanLoop_reads : ∀ (l : List String) (st : Locals) (k : Nat),
    k ∈ (scanLoop l st).2.reads → k ∈ st.reads ∨ (st.i ≤ k ∧ k ≤ st.i + l.length) := by
  intro l
  induction l using list_two_step with
  | h0 => intro st k hk; exact Or.inl hk
  | h1 tok =>
    intro st k hk
    by_cases hm : k ∈ st.reads
    · exact Or.inl hm
    · right
      simp only [scanLoop] at hk
      split_ifs at hk <;>
        simp only [List.mem_append, List.mem_singleton, hm, false_or,
          List.length_singleton] at hk ⊢ <;>
        omega
  | h2 tok v rest ih =>
    intro st k hk
    by_cases hm : k ∈ st.reads
    · exact Or.inl hm
    · right
      simp only [scanLoop] at hk
      split_ifs at hk
      · rcases ih _ k hk with h | h <;>
          simp only [List.mem_append, List.mem_singleton, hm, false_or,
            List.length_cons] at h ⊢ <;>
          omega
      · rcases ih _ k hk with h | h <;>
          simp only [List.mem_append, List.mem_singleton, hm, false_or,
            List.length_cons] at h ⊢ <;>
          omega
      · rcases ih _ k hk with h | h <;>
          simp only [List.mem_append, List.mem_singleton, hm, false_or,
            List.length_cons] at h ⊢ <;>
          omega
      · simp only [List.mem_append, List.mem_singleton, hm, false_or,
          List.length_cons] at hk ⊢
        omega

/-- The scan never reads `argv` beyond index `argc`, the position of the null pointer that
ends the vector. -/
theorem scan_reads_le_argc (prog : String) (args : List String) (k : Nat)
    (hk : k ∈ (scan (prog :: args)).2.reads) : 1 ≤ k ∧ k ≤ (prog :: args).length := by
  have h := scanLoop_reads args Locals.init k (by simpa [scan] using hk)
  simp only [Locals.init, List.not_mem_nil, false_or, List.length_cons] at h ⊢
  omega

/-- On complete flag/value pairs every index read lies before the end of the pairs. -/
theorem scanLoop_tokens_reads : ∀ (pairs : List (String × String)) (st : Locals) (k : Nat),
    (∀ p ∈ pairs, isFlag p.1 = true) → k ∈ (scanLoop (tokens pairs) st).2.reads →
    k ∈ st.reads ∨ (st.i ≤ k ∧ k < st.i + 2 * pairs.length) := by
  intro pairs
  induction pairs with
  | nil => intro st k _ hk; exact Or.inl hk
  | cons p ps ih =>
    obtain ⟨f, v⟩ := p
    intro st k h hk
    have hf : isFlag f = true := h (f, v) (List.mem_cons_self _ _)
    have hps : ∀ q ∈ ps, isFlag q.1 = true := fun q hq => h q (List.mem_cons_of_mem _ hq)
    by_cases hm : k ∈ st.reads
    · exact Or.inl hm
    · right
      rcases isFlag_cases hf with rfl | rfl | rfl <;>
        simp only [tokens, scanLoop, if_true, String.reduceEq, if_false] at hk <;>
        rcases ih _ k hps hk with h' | h' <;>
        simp only [List.mem_append, List.mem_singleton, hm, false_or, List.length_cons]
          at h' ⊢ <;>
        omega

/-- On an argument list of complete flag/value pairs the scan reads `argv` only at
indices from 1 to `argc - 1`: every flag finds its value inside the vector. -/
theorem scan_reads_lt_argc (prog : String) (pairs : List (String × String)) (k : Nat)
    (h : ∀ p ∈ pairs, isFlag p.1 = true)
    (hk : k ∈ (scan (prog :: tokens pairs)).2.reads) :
    1 ≤ k ∧ k < (prog :: tokens pairs).length := by
  have hlen : ∀ ps : List (String × String), (tokens ps).length = 2 * ps.length := by
    intro ps
    induction ps with
    | nil => rfl
    | cons q qs ih => obtain ⟨a, b⟩ := q; simp only [tokens, List.length_cons, ih]; omega
  have h' := scanLoop_tokens_reads pairs Locals.init k h (by simpa [scan] using hk)
  simp only [Locals.init, List.not_mem_nil, false_or, List.length_cons, hlen] at h' ⊢
  omega

theorem wirePort_eq (st : Locals) : wirePort st = st.port % 65536 := by
  simp only [wirePort, htons, ntohs, toUInt16]
  omega

/-! ## The send loop: lemmas -/

/-- When `counter < count` fails at once, the loop ends in the state it started in. -/
theorem sendLoop_done (env : Env) (count : Int) (fuel : Nat) (p : Proc)
    (h : count ≤ p.counter) : sendLoop env count (fuel + 1) p = some p := by
  simp [sendLoop, not_lt.mpr h]

/-- With `n` iterations left, all of whose sends succeed, the loop ends normally after
`n` more sends and `n` more progress lines, with `counter = count`. -/
theorem sendLoop_all_ok (env : Env) (count : Int) :
    ∀ (n fuel : Nat) (p : Proc), p.counter + n = count → n < fuel →
      (∀ k, k < n → env.sendto (p.sends.length + k) = none) →
      sendLoop env count fuel p = some
        { p with sends := p.sends ++ List.replicate n payload,
                 out := p.out ++ progressLines count n p.counter,
                 counter := count } := by
  intro n
  induction n with
  | zero =>
    intro fuel p hc hf _
    obtain ⟨f, rfl⟩ : ∃ f, fuel = f + 1 := ⟨fuel - 1, by omega⟩
    have hc' : p.counter = count := by simpa using hc
    rw [sendLoop_done env count f p (by omega)]
    cases p
    simp_all [progressLines]
  | succ n ih =>
    intro fuel p hc hf hs
    obtain ⟨f, rfl⟩ : ∃ f, fuel = f + 1 := ⟨fuel - 1, by omega⟩
    have hlt : p.counter < count := by push_cast at hc; omega
    have h0 : env.sendto p.sends.length = none := by simpa using hs 0 (by omega)
    simp only [sendLoop, hlt, if_true, h0]
    rw [ih f _ (by show p.counter + 1 + (n : Int) = count; push_cast at hc; omega) (by omega)
      (by
        intro k hk
        have := hs (k + 1) (by omega)
        simpa [Nat.add_assoc, Nat.add_comm 1 k] using this)]
    simp [progressLines, List.replicate_succ, String.append_assoc]

/-- With the sends of the next `j` iterations succeeding and the one after failing, the
loop ends in `die("sendto()")` after `j + 1` sends and `j` progress lines. -/
theorem sendLoop_fail (env : Env) (count : Int) (e : String) :
    ∀ (j fuel : Nat) (p : Proc), p.counter + j < count → j < fuel →
      (∀ k, k < j → env.sendto (p.sends.length + k) = none) →
      env.sendto (p.sends.length + j) = some e →
      sendLoop env count fuel p = some
        { p with sends := p.sends ++ List.replicate (j + 1) payload,
                 out := p.out ++ progressLines count j p.counter,
                 counter := p.counter + j,
                 err := p.err ++ perror "sendto()" e,
                 status := .exited 1 } := by
  intro j
  induction j with
  | zero =>
    intro fuel p hc hf _ he
    obtain ⟨f, rfl⟩ : ∃ f, fuel = f + 1 := ⟨fuel - 1, by omega⟩
    have hlt : p.counter < count := by simpa using hc
    have h0 : env.sendto p.sends.length = some e := by simpa using he
    simp [sendLoop, hlt, h0, die, progressLines]
  | succ j ih =>
    intro fuel p hc hf hs he
    obtain ⟨f, rfl⟩ : ∃ f, fuel = f + 1 := ⟨fuel - 1, by omega⟩
    have hlt : p.counter < count := by push_cast at hc; omega
    have h0 : env.sendto p.sends.length = none := by simpa using hs 0 (by omega)
    simp only [sendLoop, hlt, if_true, h0]
    rw [ih f _ (by show p.counter + 1 + (j : Int) < count; push_cast at hc; omega) (by omega)
      (by
        intro k hk
        have := hs (k + 1) (by omega)
        simpa [Nat.add_assoc, Nat.add_comm 1 k] using this)
      (by simpa [Nat.add_assoc, Nat.add_comm 1 j] using he)]
    simp only [progressLines, List.replicate_succ, String.append_assoc, List.append_assoc,
      List.singleton_append]
    congr 2
    push_cast
    omega

/-! ## `main`: one lemma per path -/

theorem main_socket_fail (env : Env) (argv : List String) (e : String)
    (h : env.socket = some e) :
    main env argv = some
      { status := .exited 1, out := "", err := perror "socket" e, sends := [], counter := 0,
        closed := false } := by
  simp [main, h, die, Proc.init]

theorem main_no_args (env : Env) (prog : String) (h : env.socket = none) :
    main env [prog] = some
      { status := .exited 1, out := "", err := perror usage env.usageErrno, sends := [],
        counter := 0, closed := false } := by
  simp [main, h, die, Proc.init]

theorem main_invalid (env : Env) (argv : List String) (tok : String)
    (st : Locals) (h : env.socket = none) (hl : argv.length ≠ 1)
    (hs : scan argv = (Stop.invalid tok, st)) :
    main env argv = some
      { status := .exited 1, out := "Invalid: " ++ tok ++ "\n", err := "", sends := [],
        counter := 0, closed := false } := by
  simp [main, h, hs, hl, Proc.init]

theorem main_scan_fault (env : Env) (argv : List String) (st : Locals)
    (h : env.socket = none) (hl : argv.length ≠ 1)
    (hs : scan argv = (Stop.fault, st)) :
    main env argv = some
      { status := .fault, out := "", err := "", sends := [], counter := 0,
        closed := false } := by
  simp [main, h, hs, hl, Proc.init]

theorem main_finished (env : Env) (argv : List String) (st : Locals)
    (h : env.socket = none) (hl : argv.length ≠ 1)
    (hs : scan argv = (Stop.finished, st)) :
    main env argv = afterScan env st Proc.init := by
  simp [main, h, hs, hl]

theorem length_cons_ne_one (prog : String) (args : List String) (ha : args ≠ []) :
    (prog :: args).length ≠ 1 := by
  cases args with
  | nil => exact absurd rfl ha
  | cons a l => simp

theorem afterScan_null (env : Env) (st : Locals) (h : st.server = none) :
    afterScan env st Proc.init = some
      { status := .fault, out := configLine none st.port st.count, err := "", sends := [],
        counter := 0, closed := false } := by
  simp [afterScan, h, Proc.init]

theorem afterScan_resolve_fail (env : Env) (st : Locals) (A : String)
    (h : st.server = some A) (hr : env.inet_aton A = false) :
    afterScan env st Proc.init = some
      { status := .exited 1, out := configLine (some A) st.port st.count,
        err := "inet_aton() failed\n", sends := [], counter := 0, closed := false } := by
  simp [afterScan, h, hr, Proc.init]

theorem afterScan_success (env : Env) (st : Locals) (A : String)
    (h : st.server = some A) (hr : env.inet_aton A = true)
    (hs : ∀ k : Nat, (k : Int) < st.count → env.sendto k = none) :
    afterScan env st Proc.init = some
      { status := .exited 0,
        out := configLine (some A) st.port st.count ++
          progressLines st.count st.count.toNat 0 ++ "100.00 %\n",
        err := "", sends := List.replicate st.count.toNat payload,
        counter := if 0 ≤ st.count then st.count else 0, closed := true } := by
  by_cases hc : 0 ≤ st.count
  · have hl := sendLoop_all_ok env st.count st.count.toNat (st.count.toNat + 1)
      { status := .running, out := configLine (some A) st.port st.count, err := "",
        sends := [], counter := 0, closed := false }
      (by show (0 : Int) + (st.count.toNat : Int) = st.count; omega) (by omega)
      (by
        intro k hk
        have := hs k (by omega)
        simpa using this)
    simp [afterScan, h, hr, Proc.init, hl, hc, String.append_assoc]
  · have hl := sendLoop_done env st.count st.count.toNat
      { status := .running, out := configLine (some A) st.port st.count, err := "",
        sends := [], counter := 0, closed := false }
      (by show st.count ≤ 0; omega)
    have h0 : st.count.toNat = 0 := by omega
    simp only [afterScan, h, hr, Proc.init, String.empty_append]
    rw [hl]
    simp [hc, h0, progressLines]

theorem afterScan_send_fail (env : Env) (st : Locals) (A : String) (j : Nat) (e : String)
    (h : st.server = some A) (hr : env.inet_aton A = true) (hj : (j : Int) < st.count)
    (hs : ∀ k : Nat, k < j → env.sendto k = none) (he : env.sendto j = some e) :
    afterScan env st Proc.init = some
      { status := .exited 1,
        out := configLine (some A) st.port st.count ++ progressLines st.count j 0,
        err := perror "sendto()" e, sends := List.replicate (j + 1) payload,
        counter := j, closed := false } := by
  have hl := sendLoop_fail env st.count e j (st.count.toNat + 1)
    { status := .running, out := configLine (some A) st.port st.count, err := "",
      sends := [], counter := 0, closed := false }
    (by show (0 : Int) + (j : Int) < st.count; omega) (by omega)
    (by
      intro k hk
      have := hs k hk
      simpa using this)
    (by simpa using he)
  simp [afterScan, h, hr, Proc.init, hl]

/-- If not every one of the sends below `count` succeeds, there is a first that fails. -/
theorem first_failure (env : Env) (count : Int)
    (h : ¬ ∀ k : Nat, (k : Int) < count → env.sendto k = none) :
    ∃ (j : Nat) (e : String), (j : Int) < count ∧ (∀ k : Nat, k < j → env.sendto k = none) ∧
      env.sendto j = some e := by
  classical
  have hex : ∃ k : Nat, (k : Int) < count ∧ env.sendto k ≠ none := by
    by_contra hne
    apply h
    intro k hk
    by_contra hk'
    exact hne ⟨k, hk, hk'⟩
  obtain ⟨hj, hne⟩ := Nat.find_spec hex
  cases he : env.sendto (Nat.find hex) with
  | none => exact absurd he hne
  | some e =>
    refine ⟨Nat.find hex, e, hj, ?_, he⟩
    intro k hk
    by_contra hk'
    exact Nat.find_min hex hk ⟨by omega, hk'⟩

/-- Every run ends, by `exit`, by `return` or by a fault: the fuel of the model is enough. -/
theorem main_total (env : Env) (argv : List String) :
    ∃ p, main env argv = some p ∧
      (p.status = .exited 0 ∨ p.status = .exited 1 ∨ p.status = .fault) := by
  classical
  cases hsock : env.socket with
  | some e => exact ⟨_, main_socket_fail env argv e hsock, Or.inr (Or.inl rfl)⟩
  | none =>
    by_cases hl : argv.length = 1
    · obtain ⟨prog, rfl⟩ := List.length_eq_one.mp hl
      exact ⟨_, main_no_args env prog hsock, Or.inr (Or.inl rfl)⟩
    · rcases hscan : scan argv with ⟨stop, st⟩
      cases stop with
      | invalid tok => exact ⟨_, main_invalid env argv tok st hsock hl hscan, Or.inr (Or.inl rfl)⟩
      | fault => exact ⟨_, main_scan_fault env argv st hsock hl hscan, Or.inr (Or.inr rfl)⟩
      | finished =>
        rw [main_finished env argv st hsock hl hscan]
        cases hsrv : st.server with
        | none => exact ⟨_, afterScan_null env st hsrv, Or.inr (Or.inr rfl)⟩
        | some A =>
          cases hr : env.inet_aton A with
          | false => exact ⟨_, afterScan_resolve_fail env st A hsrv hr, Or.inr (Or.inl rfl)⟩
          | true =>
            by_cases hs : ∀ k : Nat, (k : Int) < st.count → env.sendto k = none
            · exact ⟨_, afterScan_success env st A hsrv hr hs, Or.inl rfl⟩
            · obtain ⟨j, e, hj, hk, he⟩ := first_failure env st.count hs
              exact ⟨_, afterScan_send_fail env st A j e hsrv hr hj hk he, Or.inr (Or.inl rfl)⟩

/-- What a run that ends with status 0 has been through. -/
theorem main_exit_zero (env : Env) (argv : List String) (p : Proc)
    (hrun : main env argv = some p) (h0 : p.status = .exited 0) :
    env.socket = none ∧ argv.length ≠ 1 ∧
    ∃ st A, scan argv = (Stop.finished, st) ∧ st.server = some A ∧ env.inet_aton A = true ∧
      ∀ k : Nat, (k : Int) < st.count → env.sendto k = none := by
  classical
  cases hsock : env.socket with
  | some e =>
    rw [main_socket_fail env argv e hsock] at hrun
    cases hrun; cases h0
  | none =>
    by_cases hl : argv.length = 1
    · obtain ⟨prog, rfl⟩ := List.length_eq_one.mp hl
      rw [main_no_args env prog hsock] at hrun
      cases hrun; cases h0
    · refine ⟨rfl, hl, ?_⟩
      rcases hscan : scan argv with ⟨stop, st⟩
      cases stop with
      | invalid tok =>
        rw [main_invalid env argv tok st hsock hl hscan] at hrun
        cases hrun; cases h0
      | fault =>
        rw [main_scan_fault env argv st hsock hl hscan] at hrun
        cases hrun; cases h0
      | finished =>
        rw [main_finished env argv st hsock hl hscan] at hrun
        cases hsrv : st.server with
        | none =>
          rw [afterScan_null env st hsrv] at hrun
          cases hrun; cases h0
        | some A =>
          cases hr : env.inet_aton A with
          | false =>
            rw [afterScan_resolve_fail env st A hsrv hr] at hrun
            cases hrun; cases h0
          | true =>
            refine ⟨st, A, rfl, hsrv, hr, ?_⟩
            by_contra hs
            obtain ⟨j, e, hj, hk, he⟩ := first_failure env st.count hs
            rw [afterScan_send_fail env st A j e hsrv hr hj hk he] at hrun
            cases hrun; cases h0

/-! ## Claims about the argument scan -/

/-- C1, counterexample: on the argument list `-p 4294967297` the scan succeeds, `atol`
of the value is 4294967297, and the port it yields is 1. -/
theorem scan_port_not_atol :
    (scan ["udp_client", "-p", "4294967297"]).1 = Stop.finished ∧
    atol "4294967297" = 4294967297 ∧
    (scan ["udp_client", "-p", "4294967297"]).2.port = 1 ∧
    (scan ["udp_client", "-p", "4294967297"]).2.port ≠ atol "4294967297" := by
  decide

/-- C1, amended: for every argument list made only of complete flag/value pairs the scan
succeeds; the address is the value of the last `-s` pair or `127.0.0.1`; the port is
`atol` of the value of the last `-p` pair converted to `int` (wrapped to 32 bits), or
5556; the count is `atol` of the value of the last `-c` pair converted to `int`, or 10.
The conversion changes nothing when the `atol` value is within the range of `int`.
Values are arbitrary tokens, `-s`, `-p` and `-c` included. -/
theorem scan_complete_pairs (prog : String) (pairs : List (String × String))
    (h : ∀ p ∈ pairs, isFlag p.1 = true) :
    ∃ st, scan (prog :: tokens pairs) = (Stop.finished, st) ∧
      st.server = some ((lastValue "-s" pairs).getD SERVER) ∧
      st.port = ((lastValue "-p" pairs).map fun v => toInt (atol v)).getD PORT ∧
      st.count = ((lastValue "-c" pairs).map fun v => toInt (atol v)).getD COUNT ∧
      (∀ v, lastValue "-p" pairs = some v → -2147483648 ≤ atol v → atol v ≤ 2147483647 →
        st.port = atol v) ∧
      (∀ v, lastValue "-c" pairs = some v → -2147483648 ≤ atol v → atol v ≤ 2147483647 →
        st.count = atol v) := by
  obtain ⟨st, h₀, h₁, h₂, h₃, _⟩ := scanLoop_tokens [] pairs Locals.init h
  have hs : scan (prog :: tokens pairs) = (Stop.finished, st) := by
    simp only [scan, List.drop_succ_cons, List.drop_zero]
    rw [← List.append_nil (tokens pairs), h₀]
    rfl
  refine ⟨st, hs, ?_, ?_, ?_, ?_, ?_⟩
  · rw [h₁]; cases lastValue "-s" pairs <;> rfl
  · rw [h₂]; cases lastValue "-p" pairs <;> rfl
  · rw [h₃]; cases lastValue "-c" pairs <;> rfl
  · intro v hv lo hi
    rw [h₂, hv]
    exact toInt_of_range lo hi
  · intro v hv lo hi
    rw [h₃, hv]
    exact toInt_of_range lo hi

/-- Witness for C1: `-s 10.0.0.1 -p 80 -c -s -s 10.0.0.2`, with a
value spelled `-s`. -/
theorem scan_complete_pairs_witness :
    ∃ st, scan ("udp_client" :: tokens [("-s", "10.0.0.1"), ("-p", "80"), ("-c", "-s"),
        ("-s", "10.0.0.2")]) = (Stop.finished, st) ∧
      st.server = some ((lastValue "-s" [("-s", "10.0.0.1"), ("-p", "80"), ("-c", "-s"),
        ("-s", "10.0.0.2")]).getD SERVER) ∧
      st.port = ((lastValue "-p" [("-s", "10.0.0.1"), ("-p", "80"), ("-c", "-s"),
        ("-s", "10.0.0.2")]).map fun v => toInt (atol v)).getD PORT ∧
      st.count = ((lastValue "-c" [("-s", "10.0.0.1"), ("-p", "80"), ("-c", "-s"),
        ("-s", "10.0.0.2")]).map fun v => toInt (atol v)).getD COUNT ∧
      (∀ v, lastValue "-p" [("-s", "10.0.0.1"), ("-p", "80"), ("-c", "-s"),
        ("-s", "10.0.0.2")] = some v → -2147483648 ≤ atol v → atol v ≤ 2147483647 →
        st.port = atol v) ∧
      (∀ v, lastValue "-c" [("-s", "10.0.0.1"), ("-p", "80"), ("-c", "-s"),
        ("-s", "10.0.0.2")] = some v → -2147483648 ≤ atol v → atol v ≤ 2147483647 →
        st.count = atol v) :=
  scan_complete_pairs "udp_client"
    [("-s", "10.0.0.1"), ("-p", "80"), ("-c", "-s"), ("-s", "10.0.0.2")] (by decide)

/-- C8, counterexample: the scan accepts `-p 70000 -c -5`; the port is 70000, above
65535, the `sin_port` field carries 4464, and the count is -5. -/
theorem scan_port_count_unchecked :
    (scan ["udp_client", "-p", "70000", "-c", "-5"]).1 = Stop.finished ∧
    (scan ["udp_client", "-p", "70000", "-c", "-5"]).2.port = 70000 ∧
    wirePort (scan ["udp_client", "-p", "70000", "-c", "-5"]).2 = 4464 ∧
    (scan ["udp_client", "-p", "70000", "-c", "-5"]).2.count = -5 := by
  decide

/-- C8, amended: for every argument list the scan accepts, the port and the count are
values of `int`, between -2^31 and 2^31 - 1 (they may be negative, and the port may
exceed 65535); the number in the `sin_port` field is the port modulo 2^16, and it is
the printed port exactly when the port lies between 0 and 65535. -/
theorem scan_config_range (argv : List String) (st : Locals)
    (h : scan argv = (Stop.finished, st)) :
    (-2147483648 ≤ st.port ∧ st.port ≤ 2147483647) ∧
    (-2147483648 ≤ st.count ∧ st.count ≤ 2147483647) ∧
    wirePort st = st.port % 65536 ∧
    (wirePort st = st.port ↔ 0 ≤ st.port ∧ st.port ≤ 65535) := by
  have hr := scanLoop_range (argv.drop 1) Locals.init (by decide) (by decide)
  have hst : (scanLoop (argv.drop 1) Locals.init).2 = st := by
    have := congrArg Prod.snd h
    simpa [scan] using this
  rw [hst] at hr
  refine ⟨hr.1, hr.2, wirePort_eq st, ?_⟩
  rw [wirePort_eq]
  omega

/-- Witness for C8: the argument list `-p 8080 -c 3`. -/
theorem scan_config_range_witness :
    (-2147483648 ≤ (8080 : Int) ∧ (8080 : Int) ≤ 2147483647) ∧
    (-2147483648 ≤ (3 : Int) ∧ (3 : Int) ≤ 2147483647) ∧
    wirePort { server := some SERVER, port := 8080, count := 3, i := 5, reads := [1, 2, 3, 4] }
      = (8080 : Int) % 65536 ∧
    (wirePort { server := some SERVER, port := 8080, count := 3, i := 5, reads := [1, 2, 3, 4] }
      = (8080 : Int) ↔ 0 ≤ (8080 : Int) ∧ (8080 : Int) ≤ 65535) :=
  scan_config_range ["udp_client", "-p", "8080", "-c", "3"]
    { server := some SERVER, port := 8080, count := 3, i := 5, reads := [1, 2, 3, 4] }
    (by decide)

/-- C10, at the failing input: on the argument list `-c` (`argc` is 2) the scan reads
`argv[1]`, then evaluates `argv[++i]` with `i + 1 = 2 = argc`, and hands that null
pointer to `atol`. -/
theorem scan_flag_last_reads_past_end :
    ["udp_client", "-c"].length = 2 ∧
    scan ["udp_client", "-c"] =
      (Stop.fault, { server := some SERVER, port := PORT, count := COUNT, i := 2,
                     reads := [1, 2] }) ∧
    (∃ k ∈ (scan ["udp_client", "-c"]).2.reads, ["udp_client", "-c"].length ≤ k) := by
  decide

/-! ## Claims about whole runs -/

/-- C2, counterexample: with a failing `socket` call the argument list `-x` prints
nothing on standard output; the run ends in `die("socket")`. -/
theorem invalid_token_after_socket_failure :
    main { Env.ok with socket := some "Too many open files" } ["udp_client", "-x"] = some
      { status := .exited 1, out := "", err := "socket: Too many open files\n", sends := [],
        counter := 0, closed := false } := by
  decide

/-- C2, amended: when socket creation succeeds, for every argument list that consists of
complete flag/value pairs followed by a token that is not `-s`, `-p` or `-c` (and then
anything), the program prints exactly `Invalid: <token>` and a newline on standard
output, writes nothing else, ends with exit status 1, prints no configuration line and
sends no datagram. -/
theorem invalid_token_run (env : Env) (prog : String) (pairs : List (String × String))
    (tok : String) (rest : List String)
    (hsock : env.socket = none) (hp : ∀ p ∈ pairs, isFlag p.1 = true)
    (ht : isFlag tok = false) :
    main env (prog :: (tokens pairs ++ tok :: rest)) = some
      { status := .exited 1, out := "Invalid: " ++ tok ++ "\n", err := "", sends := [],
        counter := 0, closed := false } := by
  obtain ⟨st, h₀, _⟩ := scanLoop_tokens (tok :: rest) pairs Locals.init hp
  have h1 := scanLoop_invalid tok rest st ht
  have hs : scan (prog :: (tokens pairs ++ tok :: rest)) =
      (Stop.invalid tok, (scanLoop (tok :: rest) st).2) := by
    simp only [scan, List.drop_succ_cons, List.drop_zero]
    rw [h₀, ← h1]
  exact main_invalid env _ tok _ hsock (length_cons_ne_one prog _ (by simp)) hs

/-- Witness for C2: the argument lists `-x` and `-p 80 -x -c`. -/
theorem invalid_token_run_witness :
    main Env.ok ("udp_client" :: (tokens [] ++ "-x" :: [])) = some
      { status := .exited 1, out := "Invalid: " ++ "-x" ++ "\n", err := "", sends := [],
        counter := 0, closed := false } ∧
    main Env.ok ("udp_client" :: (tokens [("-p", "80")] ++ "-x" :: ["-c"])) = some
      { status := .exited 1, out := "Invalid: " ++ "-x" ++ "\n", err := "", sends := [],
        counter := 0, closed := false } :=
  ⟨invalid_token_run Env.ok "udp_client" [] "-x" [] rfl (by decide) (by decide),
   invalid_token_run Env.ok "udp_client" [("-p", "80")] "-x" ["-c"] rfl (by decide) (by decide)⟩

/-- C3, counterexample: with no arguments and a failing `socket` call, standard error
receives the `socket` diagnostic and no usage message. -/
theorem no_args_after_socket_failure :
    main { Env.ok with socket := some "Too many open files" } ["udp_client"] = some
      { status := .exited 1, out := "", err := "socket: Too many open files\n", sends := [],
        counter := 0, closed := false } ∧
    ¬ (usage.toList <+: "socket: Too many open files\n".toList) := by
  decide

/-- C3, amended: given no arguments, for every outcome of the operating-system calls
the program ends with exit status 1, prints nothing on standard output and sends no
datagram.  When socket creation succeeds, standard error receives the usage text
(followed, as `perror` does, by a colon and the text of `errno`); when socket creation
fails, standard error receives the `socket` diagnostic instead. -/
theorem no_args_run (env : Env) (prog : String) :
    ∃ p, main env [prog] = some p ∧ p.status = .exited 1 ∧ p.out = "" ∧ p.sends = [] ∧
      (env.socket = none →
        p.err = perror usage env.usageErrno ∧ usage.toList <+: p.err.toList) ∧
      (∀ e, env.socket = some e → p.err = perror "socket" e) := by
  cases hsock : env.socket with
  | some e =>
    refine ⟨_, main_socket_fail env [prog] e hsock, rfl, rfl, rfl, ?_, ?_⟩
    · intro h; cases h
    · intro e' he'; cases he'; rfl
  | none =>
    refine ⟨_, main_no_args env prog hsock, rfl, rfl, rfl, ?_, ?_⟩
    · intro _
      refine ⟨rfl, ?_⟩
      show usage.toList <+: (perror usage env.usageErrno).toList
      simp only [perror, String.toList, String.data_append, List.append_assoc]
      exact List.prefix_append _ _
    · intro e he; cases he

/-- Witness for C3: no arguments, every call succeeding. -/
theorem no_args_run_witness :
    ∃ p, main Env.ok ["udp_client"] = some p ∧ p.status = .exited 1 ∧ p.out = "" ∧
      p.sends = [] ∧
      (Env.ok.socket = none →
        p.err = perror usage Env.ok.usageErrno ∧ usage.toList <+: p.err.toList) ∧
      (∀ e, Env.ok.socket = some e → p.err = perror "socket" e) :=
  no_args_run Env.ok "udp_client"

theorem message_length : message.length = 512 := by
  unfold message
  rw [List.length_append, List.length_replicate]
  rfl

theorem perror_ne_empty (s e : String) : perror s e ≠ "" := by
  intro h
  have := congrArg String.data h
  simp [perror] at this

/-- C4: for every argument list whose scan succeeds with an address and a count
`N ≥ 0`, when socket creation, address resolution and each of the `N` sends succeed,
the run makes exactly `N` calls of `sendto` (none when `N = 0`), each with the 8 bytes
`test123\n` (the first `strlen(message)` bytes of the 512-byte buffer), and the loop
ends with `counter = N`; the run ends with exit status 0. -/
theorem send_loop_exact (env : Env) (prog : String) (args : List String) (st : Locals)
    (A : String) (ha : args ≠ []) (hscan : scan (prog :: args) = (Stop.finished, st))
    (hA : st.server = some A) (hN : 0 ≤ st.count) (hsock : env.socket = none)
    (hres : env.inet_aton A = true)
    (hsend : ∀ k : Nat, (k : Int) < st.count → env.sendto k = none) :
    ∃ p, main env (prog :: args) = some p ∧ p.status = .exited 0 ∧
      p.sends = List.replicate st.count.toNat payload ∧
      (p.sends.length : Int) = st.count ∧
      (st.count = 0 → p.sends = []) ∧
      payload = "test123\n".toList ∧ payload.length = 8 ∧
      message.length = 512 ∧ strlen message = 8 ∧
      p.counter = st.count ∧ ¬ p.counter < st.count := by
  refine ⟨_, (main_finished env _ st hsock (length_cons_ne_one prog args ha) hscan).trans
    (afterScan_success env st A hA hres hsend), rfl, rfl, ?_, ?_, by decide, by decide,
    message_length, by decide, ?_, ?_⟩
  · simp only [List.length_replicate]; omega
  · intro h0; simp [h0]
  · simp [hN]
  · simp [hN]

/-- Witness for C4: `-c 3` with every call succeeding. -/
theorem send_loop_exact_witness :
    ∃ p, main Env.ok ("udp_client" :: ["-c", "3"]) = some p ∧ p.status = .exited 0 ∧
      p.sends = List.replicate (3 : Int).toNat payload ∧
      (p.sends.length : Int) = (3 : Int) ∧
      ((3 : Int) = 0 → p.sends = []) ∧
      payload = "test123\n".toList ∧ payload.length = 8 ∧
      message.length = 512 ∧ strlen message = 8 ∧
      p.counter = (3 : Int) ∧ ¬ p.counter < (3 : Int) :=
  send_loop_exact Env.ok "udp_client" ["-c", "3"]
    { server := some SERVER, port := PORT, count := 3, i := 3, reads := [1, 2] }
    SERVER (by decide) (by decide) rfl (by decide) rfl rfl (fun _ _ => rfl)

/-- C6, at the failing input: on the argument list `-c`, with every operating-system
call succeeding, `atol` is handed the null pointer `argv[argc]`; the run ends in a
fault, with neither exit status 0 nor exit status 1, and nothing printed. -/
theorem flag_without_value_faults :
    main Env.ok ["udp_client", "-c"] = some
      { status := .fault, out := "", err := "", sends := [], counter := 0, closed := false } ∧
    (scan ["udp_client", "-c"]).1 = Stop.fault ∧
    Status.fault ≠ Status.exited 0 ∧ Status.fault ≠ Status.exited 1 := by
  decide

/-- Exit status 0 is reached exactly when arguments were supplied, socket creation
succeeded, the scan ran to its end, the address resolved and every send below `count`
succeeded. -/
theorem exit_zero_iff (env : Env) (argv : List String) (p : Proc)
    (hrun : main env argv = some p) :
    p.status = .exited 0 ↔
      (env.socket = none ∧ argv.length ≠ 1 ∧
        ∃ st A, scan argv = (Stop.finished, st) ∧ st.server = some A ∧
          env.inet_aton A = true ∧ ∀ k : Nat, (k : Int) < st.count → env.sendto k = none) := by
  constructor
  · exact main_exit_zero env argv p hrun
  · rintro ⟨hsock, hl, st, A, hscan, hA, hres, hsend⟩
    rw [main_finished env argv st hsock hl hscan, afterScan_success env st A hA hres hsend]
      at hrun
    cases hrun
    rfl

/-- A run ends in a fault exactly when socket creation succeeded, arguments were
supplied, and a flag is the last token: either `-p` or `-c` (the scan hands a null
pointer to `atol`) or `-s` (the scan ends with a null `server`). -/
theorem fault_iff (env : Env) (argv : List String) (p : Proc)
    (hrun : main env argv = some p) :
    p.status = .fault ↔
      (env.socket = none ∧ argv.length ≠ 1 ∧
        ((scan argv).1 = Stop.fault ∨
          ((scan argv).1 = Stop.finished ∧ (scan argv).2.server = none))) := by
  classical
  cases hsock : env.socket with
  | some e =>
    rw [main_socket_fail env argv e hsock] at hrun
    cases hrun
    simp
  | none =>
    by_cases hl : argv.length = 1
    · obtain ⟨prog, rfl⟩ := List.length_eq_one.mp hl
      rw [main_no_args env prog hsock] at hrun
      cases hrun
      simp
    · rcases hscan : scan argv with ⟨stop, st⟩
      cases stop with
      | invalid tok =>
        rw [main_invalid env argv tok st hsock hl hscan] at hrun
        cases hrun
        simp
      | fault =>
        rw [main_scan_fault env argv st hsock hl hscan] at hrun
        cases hrun
        simp [hl]
      | finished =>
        rw [main_finished env argv st hsock hl hscan] at hrun
        cases hsrv : st.server with
        | none =>
          rw [afterScan_null env st hsrv] at hrun
          cases hrun
          simp [hl, hsrv]
        | some A =>
          cases hr : env.inet_aton A with
          | false =>
            rw [afterScan_resolve_fail env st A hsrv hr] at hrun
            cases hrun
            simp [hsrv]
          | true =>
            by_cases hs : ∀ k : Nat, (k : Int) < st.count → env.sendto k = none
            · rw [afterScan_success env st A hsrv hr hs] at hrun
              cases hrun
              simp [hsrv]
            · obtain ⟨j, e, hj, hk, he⟩ := first_failure env st.count hs
              rw [afterScan_send_fail env st A j e hsrv hr hj hk he] at hrun
              cases hrun
              simp [hsrv]

/-- The first failing send ends the run: when the sends before the `(j+1)`-th succeed and
that one fails, exactly `j + 1` sends are attempted, the run ends with exit status 1
and the final `100.00 %` line is not printed (standard output holds the configuration
line and `j` progress lines). -/
theorem first_failing_send_ends_run (env : Env) (argv : List String) (st : Locals)
    (A : String) (j : Nat) (e : String) (hsock : env.socket = none) (hl : argv.length ≠ 1)
    (hscan : scan argv = (Stop.finished, st)) (hA : st.server = some A)
    (hres : env.inet_aton A = true) (hj : (j : Int) < st.count)
    (hs : ∀ k : Nat, k < j → env.sendto k = none) (he : env.sendto j = some e) :
    main env argv = some
      { status := .exited 1,
        out := configLine (some A) st.port st.count ++ progressLines st.count j 0,
        err := perror "sendto()" e, sends := List.replicate (j + 1) payload,
        counter := j, closed := false } :=
  (main_finished env argv st hsock hl hscan).trans
    (afterScan_send_fail env st A j e hA hres hj hs he)

/-- C7, counterexample: the unrecognized-token error writes nothing to standard error
(its only diagnostic goes to standard output), and the usage error writes nothing to
standard output. -/
theorem diagnostics_streams :
    main Env.ok ["udp_client", "-x"] = some
      { status := .exited 1, out := "Invalid: -x\n", err := "", sends := [], counter := 0,
        closed := false } ∧
    main Env.ok ["udp_client"] = some
      { status := .exited 1, out := "",
        err := "Usage:\n udp_client -s \x7bip_address\x7d -p \x7budp_port\x7d [-c \x7bpackets\x7d]\n: Success\n",
        sends := [], counter := 0, closed := false } := by
  decide

/-- C7, amended: each of the five fatal error categories ends the run with exit code 1.
Socket creation failure, the usage error, address resolution failure and send failure
write their diagnostic to standard error; the usage error writes nothing to standard
output.  The unrecognized-token error writes `Invalid: <token>` to standard output and
nothing to standard error. -/
theorem fatal_errors (env : Env) (prog : String) (args : List String) :
    (∀ e, env.socket = some e →
      ∃ p, main env (prog :: args) = some p ∧ p.status = .exited 1 ∧
        p.err = perror "socket" e ∧ p.err ≠ "" ∧ p.out = "") ∧
    (env.socket = none → args = [] →
      ∃ p, main env (prog :: args) = some p ∧ p.status = .exited 1 ∧
        p.err = perror usage env.usageErrno ∧ p.err ≠ "" ∧ p.out = "") ∧
    (∀ tok st, env.socket = none → args ≠ [] → scan (prog :: args) = (Stop.invalid tok, st) →
      ∃ p, main env (prog :: args) = some p ∧ p.status = .exited 1 ∧
        p.err = "" ∧ p.out = "Invalid: " ++ tok ++ "\n") ∧
    (∀ st A, env.socket = none → args ≠ [] → scan (prog :: args) = (Stop.finished, st) →
      st.server = some A → env.inet_aton A = false →
      ∃ p, main env (prog :: args) = some p ∧ p.status = .exited 1 ∧
        p.err = "inet_aton() failed\n" ∧ p.err ≠ "" ∧
        p.out = configLine (some A) st.port st.count) ∧
    (∀ st A (j : Nat) e, env.socket = none → args ≠ [] →
      scan (prog :: args) = (Stop.finished, st) →
      st.server = some A → env.inet_aton A = true → (j : Int) < st.count →
      (∀ k : Nat, k < j → env.sendto k = none) → env.sendto j = some e →
      ∃ p, main env (prog :: args) = some p ∧ p.status = .exited 1 ∧
        p.err = perror "sendto()" e ∧ p.err ≠ "" ∧
        p.out = configLine (some A) st.port st.count ++ progressLines st.count j 0) := by
  refine ⟨?_, ?_, ?_, ?_, ?_⟩
  · intro e he
    exact ⟨_, main_socket_fail env _ e he, rfl, rfl, perror_ne_empty _ _, rfl⟩
  · intro hs ha
    subst ha
    exact ⟨_, main_no_args env prog hs, rfl, rfl, perror_ne_empty _ _, rfl⟩
  · intro tok st hs ha hscan
    exact ⟨_, main_invalid env _ tok st hs (length_cons_ne_one prog args ha) hscan, rfl, rfl,
      rfl⟩
  · intro st A hs ha hscan hA hr
    refine ⟨_, (main_finished env _ st hs (length_cons_ne_one prog args ha) hscan).trans
      (afterScan_resolve_fail env st A hA hr), rfl, rfl, ?_, rfl⟩
    show "inet_aton() failed\n" ≠ ""
    decide
  · intro st A j e hs ha hscan hA hr hj hk he
    exact ⟨_, (main_finished env _ st hs (length_cons_ne_one prog args ha) hscan).trans
      (afterScan_send_fail env st A j e hA hr hj hk he), rfl, rfl, perror_ne_empty _ _, rfl⟩

/-- Witness for C7: the unrecognized token `-x`, every call succeeding. -/
theorem fatal_errors_witness :
    ∃ p, main Env.ok ("udp_client" :: ["-x"]) = some p ∧ p.status = .exited 1 ∧
      p.err = "" ∧ p.out = "Invalid: " ++ "-x" ++ "\n" :=
  (fatal_errors Env.ok "udp_client" ["-x"]).2.2.1 "-x"
    { server := some SERVER, port := PORT, count := COUNT, i := 1, reads := [1] }
    rfl (by decide) (by decide)

/-- C9, counterexample (the negation of the claim): there are no count `n > 0` with
`(n-1)*100` in the range of `int` and iteration `i` with `i + 1 < n` for which the value
displayed at iteration `i + 1` is strictly smaller than the one displayed at `i`. -/
theorem progress_never_decreases :
    ¬ ∃ n i : Int, 0 < n ∧ (n - 1) * 100 ≤ 2147483647 ∧ 0 ≤ i ∧ i + 1 < n ∧
      percent (i + 1) n < percent i n := by
  rintro ⟨n, i, hn, hr, hi, hlt, hdec⟩
  exact absurd (percent_mono hn hr hi hlt) (not_le.mpr hdec)

/-- C9, amended: the displayed progress value is coarse but monotone: for every count
`n > 0` with `(n-1)*100` in the range of `int` and every iteration `i` with
`i + 1 < n`, the value displayed at iteration `i` is at most the value displayed at
iteration `i + 1`. -/
theorem progress_monotone (n i : Int) (hn : 0 < n) (hr : (n - 1) * 100 ≤ 2147483647)
    (hi : 0 ≤ i) (hlt : i + 1 < n) : percent i n ≤ percent (i + 1) n :=
  percent_mono hn hr hi hlt

/-- Witness for C9: count 3, iterations 0 and 1 (values 0 and 33). -/
theorem progress_monotone_witness :
    (0 : Int) < 3 ∧ ((3 : Int) - 1) * 100 ≤ 2147483647 ∧ (0 : Int) + 1 < 3 ∧
    percent 0 3 = 0 ∧ percent (0 + 1) 3 = 33 ∧ percent 0 3 ≤ percent (0 + 1) 3 :=
  ⟨by decide, by decide, by decide, by decide, by decide,
   progress_monotone 3 0 (by decide) (by decide) (by decide) (by decide)⟩

/-! ## Standard output of a successful run -/

theorem string_join_cons (a : String) (l : List String) :
    String.join (a :: l) = a ++ String.join l := by
  apply String.ext
  simp [String.data_join]

/-- Without overflow the progress line of the program is the line of the specification. -/
theorem progressLine_spec (n c : Nat) (hc : c * 100 ≤ 2147483647) :
    progressLine (c : Int) (n : Int) = specLine n c := by
  unfold progressLine specLine fmtFloat2
  rw [percent_of_range (by omega) (by omega) (by exact_mod_cast hc)]
  have hq : ((c : Int) * 100 / (n : Int)) = ((c * 100 / n : Nat) : Int) := by
    push_cast
    rfl
  rw [hq, String.append_assoc]
  rfl

theorem progressLines_spec (n : Nat) (hr : ((n : Int) - 1) * 100 ≤ 2147483647) :
    ∀ (m c : Nat), c + m ≤ n →
      progressLines (n : Int) m (c : Int) =
        String.join ((List.range m).map fun k => specLine n (c + k)) := by
  intro m
  induction m with
  | zero => intro c _; rfl
  | succ m ih =>
    intro c hle
    have hc : c * 100 ≤ 2147483647 := by
      have : ((c : Int)) ≤ (n : Int) - 1 := by omega
      have : (c : Int) * 100 ≤ 2147483647 := by omega
      exact_mod_cast this
    have hcast : ((c : Int) + 1) = ((c + 1 : Nat) : Int) := by push_cast; rfl
    simp only [progressLines]
    rw [progressLine_spec n c hc, hcast, ih (c + 1) (by omega), List.range_succ_eq_map,
      List.map_cons, List.map_map, string_join_cons]
    congr 2
    apply List.map_congr_left
    intro k _
    show specLine n (c + 1 + k) = specLine n (c + Nat.succ k)
    congr 1
    omega

/-- C5: for every run that ends with exit status 0, with parsed address `A`, port `P`
and count `N`, where `0 ≤ N` and `(N-1)*100` is in the range of `int`, standard output
is exactly the line `Server: A, port: P, packets: N`, then `N` progress lines, the
`i`-th (from 0) showing `floor(i*100/N)` with the decimals `.00`, a blank and `%`, then
the line `100.00 %`. -/
theorem stdout_of_successful_run (env : Env) (prog : String) (args : List String)
    (st : Locals) (A : String) (p : Proc)
    (hscan : scan (prog :: args) = (Stop.finished, st)) (hA : st.server = some A)
    (hN : 0 ≤ st.count) (hr : (st.count - 1) * 100 ≤ 2147483647)
    (hrun : main env (prog :: args) = some p) (hok : p.status = .exited 0) :
    p.out = "Server: " ++ A ++ ", port: " ++ toString st.port ++ ", packets: " ++
        toString st.count ++ "\n" ++
      String.join ((List.range st.count.toNat).map fun i => specLine st.count.toNat i) ++
      "100.00 %\n" := by
  obtain ⟨hsock, hl, st', A', hscan', hA', hres, hsend⟩ := main_exit_zero env _ p hrun hok
  rw [hscan] at hscan'
  cases hscan'
  rw [hA] at hA'
  cases hA'
  rw [main_finished env _ st hsock hl hscan, afterScan_success env st A hA hres hsend] at hrun
  cases hrun
  have hn : ((st.count.toNat : Nat) : Int) = st.count := by omega
  have hlines := progressLines_spec st.count.toNat (by rw [hn]; exact hr) st.count.toNat 0
    (by omega)
  rw [hn] at hlines
  simp only [Nat.cast_zero, Nat.zero_add] at hlines
  show configLine (some A) st.port st.count ++ progressLines st.count st.count.toNat 0 ++
    "100.00 %\n" = _
  rw [hlines]
  rfl

/-- Witness for C5: `-s 127.0.0.1 -p 5556 -c 3` prints the
configuration line, the progress lines 0.00, 33.00, 66.00 and the final line; the
second equation spells the text out.  The last part runs `-c 10`: 0.00, 10.00, ...,
90.00 before the final line. -/
theorem stdout_of_successful_run_witness :
    ("Server: 127.0.0.1, port: 5556, packets: 3\n0.00 %\n33.00 %\n66.00 %\n100.00 %\n" =
      "Server: " ++ "127.0.0.1" ++ ", port: " ++ toString (5556 : Int) ++ ", packets: " ++
        toString (3 : Int) ++ "\n" ++
      String.join ((List.range (3 : Int).toNat).map fun i => specLine (3 : Int).toNat i) ++
      "100.00 %\n") ∧
    (main Env.ok ["udp_client", "-s", "127.0.0.1", "-p", "5556", "-c", "3"]).map Proc.out =
      some "Server: 127.0.0.1, port: 5556, packets: 3\n0.00 %\n33.00 %\n66.00 %\n100.00 %\n" ∧
    (main Env.ok ["udp_client", "-c", "10"]).map Proc.out =
      some ("Server: 127.0.0.1, port: 5556, packets: 10\n0.00 %\n10.00 %\n20.00 %\n30.00 %\n" ++
        "40.00 %\n50.00 %\n60.00 %\n70.00 %\n80.00 %\n90.00 %\n100.00 %\n") :=
  ⟨stdout_of_successful_run Env.ok "udp_client" ["-s", "127.0.0.1", "-p", "5556", "-c", "3"]
      { server := some "127.0.0.1", port := 5556, count := 3, i := 7,
        reads := [1, 2, 3, 4, 5, 6] }
      "127.0.0.1"
      { status := .exited 0,
        out := "Server: 127.0.0.1, port: 5556, packets: 3\n0.00 %\n33.00 %\n66.00 %\n100.00 %\n",
        err := "", sends := [payload, payload, payload], counter := 3, closed := true }
      (by decide) rfl (by decide) (by decide) (by decide) rfl,
    by decide, by decide⟩

end UdpClient
